import Mathlib

/-!
Shallow embedding of the frame-update logic of `src/project/tutorial/src/main.rs`
(a rusty_engine tutorial game).  Rust `f32`/`f64` values are modelled as `Rat`,
`u32` as `Nat` (no claim involves values near `2^32`), `i32` as `Int`.  The
engine-owned keyed sprite/text tables are modelled as association lists with
map semantics.  Engine primitives that are external dependencies (the bevy
`Timer`, the `rusty_engine` collision pair, keyboard/mouse snapshots) are
modelled from their documented behaviour, which the spec restates in its
section 3.  The host cosine (`f64::cos`) is transcendental and enters only the
HUD text translation, which no claim constrains; the embedding is parametric
over an arbitrary function `cosFn` standing for it.
-/

namespace Tutorial

/-- Two-dimensional vector (the engine `Vec2`, components modelled as `Rat`). -/
structure Vec2 where
  x : Rat
  y : Rat
  deriving DecidableEq

/-- Lookup in a keyed table (association list with map semantics). -/
def tableGet {α : Type} (t : List (String × α)) (label : String) : Option α :=
  (t.find? (fun p => p.1 == label)).map (fun p => p.2)

/-- Removal from a keyed table: the Rust `HashMap::remove` / `Sprites::remove`. -/
def tableRemove {α : Type} (t : List (String × α)) (label : String) : List (String × α) :=
  t.filter (fun p => p.1 != label)

/-- Insertion into a keyed table, replacing any entry with the same key
(the Rust `HashMap::insert`). -/
def tableInsert {α : Type} (t : List (String × α)) (label : String) (v : α) : List (String × α) :=
  (label, v) :: tableRemove t label

/-- In-place mutation of the entry with the given key, as done through
`get_mut(..).unwrap()` in the source.  When the key is present this agrees with
the source; the source panics on absence, which the spec (section 7) declares an
unreachable precondition violation, so theorems assume presence where the
distinction matters. -/
def tableModify {α : Type} (t : List (String × α)) (label : String) (f : α → α) :
    List (String × α) :=
  t.map (fun p => if p.1 == label then (p.1, f p.2) else p)

/-- A sprite entity: the fields of the engine sprite that `main.rs` touches. -/
structure Sprite where
  translation : Vec2
  rotation : Rat
  scale : Rat
  layer : Rat
  collision : Bool
  deriving DecidableEq

/-- The sprite produced by `add_sprite` before the caller mutates it:
translation at the origin, no rotation, scale 1, layer 0, collision disabled. -/
def defaultSprite : Sprite :=
  { translation := { x := 0, y := 0 }, rotation := 0, scale := 1, layer := 0,
    collision := false }

/-- A text entity: display string and position. -/
structure Text where
  value : String
  translation : Vec2
  deriving DecidableEq

/-- The begin/end tag of a collision event (`rusty_engine` `CollisionState`). -/
inductive CollisionState where
  | Begin
  | End
  deriving DecidableEq

/-- Whether `pre` is a prefix of `s` (the Rust `str::starts_with`), stated on
the underlying character lists so that it evaluates by kernel reduction. -/
def strStartsWith (s pre : String) : Bool :=
  pre.data.isPrefixOf s.data

/-- The `rusty_engine` `CollisionPair::one_starts_with`: whether either member
of the pair of labels starts with the given string. -/
def one_starts_with (pair : String × String) (s : String) : Bool :=
  strStartsWith pair.1 s || strStartsWith pair.2 s

/-- A collision event: a pair of entity labels and a begin/end state tag. -/
structure CollisionEvent where
  state : CollisionState
  pair : String × String
  deriving DecidableEq

/-- The key codes `main.rs` queries. -/
inductive KeyCode where
  | Q
  | R
  | W
  | A
  | S
  | D
  | Up
  | Down
  | Left
  | Right
  deriving DecidableEq

/-- Keyboard snapshot for one frame: edge-triggered (`just_pressed`) and held
(`pressed`) state per key. -/
structure KeyboardState where
  just_pressed : KeyCode → Bool
  pressed : KeyCode → Bool

/-- Whether any key of the list is currently held (`KeyboardState::pressed_any`). -/
def KeyboardState.pressed_any (ks : KeyboardState) (keys : List KeyCode) : Bool :=
  keys.any ks.pressed

/-- Mouse buttons. -/
inductive MouseButton where
  | Left
  | Right
  | Middle
  deriving DecidableEq

/-- Mouse snapshot for one frame: edge-triggered button state and the pointer
location when one is available. -/
structure MouseState where
  just_pressed : MouseButton → Bool
  location : Option Vec2

/-- Repeating timer, modelled from the spec section 3: it accumulates elapsed
time, signals `just_finished` on the tick that crosses the interval, and then
resets (repeating mode).  The source constructs it with
`Timer::from_seconds(2.0, TimerMode::Repeating)`. -/
structure Timer where
  duration : Rat
  elapsed : Rat
  just_finished_flag : Bool
  deriving DecidableEq

/-- Advance the timer by the frame delta. -/
def Timer.tick (t : Timer) (delta : Rat) : Timer :=
  let e := t.elapsed + delta
  if t.duration ≤ e then
    { duration := t.duration, elapsed := e - t.duration, just_finished_flag := true }
  else
    { duration := t.duration, elapsed := e, just_finished_flag := false }

/-- One-shot signal: did the last `tick` cross the interval. -/
def Timer.just_finished (t : Timer) : Bool :=
  t.just_finished_flag

/-- The engine state visible to `game_logic`.  `delta` models both
`engine.delta` and `engine.delta_f32` (the same frame delta, exposed by the
engine in two types).  `sfx_played` records the fire-and-forget
`audio_manager.play_sfx` calls; `spawn_trace` is a ghost observation listing, in
order, the labels passed to `add_sprite` by the logic, used to state the
label-uniqueness property. -/
structure Engine where
  should_exit : Bool
  time_since_startup : Rat
  window_dimensions : Vec2
  delta : Rat
  keyboard_state : KeyboardState
  mouse_state : MouseState
  collision_events : List CollisionEvent
  sprites : List (String × Sprite)
  texts : List (String × Text)
  sfx_played : List String
  spawn_trace : List String

/-- The engine `add_sprite`: insert a fresh default sprite under the label (the
caller then mutates its fields).  Also appends the label to the ghost trace. -/
def Engine.add_sprite (e : Engine) (label : String) : Engine :=
  { e with sprites := tableInsert e.sprites label defaultSprite,
           spawn_trace := e.spawn_trace ++ [label] }

/-- Mutate the sprite stored under a label (a `sprites.get_mut` write). -/
def spriteModify (e : Engine) (label : String) (f : Sprite → Sprite) : Engine :=
  { e with sprites := tableModify e.sprites label f }

/-- Mutate the text stored under a label (a `texts.get_mut` write). -/
def textModify (e : Engine) (label : String) (f : Text → Text) : Engine :=
  { e with texts := tableModify e.texts label f }

/-- The value of the text stored under a label, when present. -/
def textValue (e : Engine) (label : String) : Option String :=
  (tableGet e.texts label).map (fun t => t.value)

/-- The persistent game state struct of `main.rs`. -/
structure GameState where
  high_score : Nat
  score : Nat
  ferris_index : Int
  spawn_timer : Timer
  deriving DecidableEq

/-- `GameState::default()`: zero scores, zero counter, a 2-second repeating
spawn timer. -/
def GameState.default : GameState :=
  { high_score := 0, score := 0, ferris_index := 0,
    spawn_timer := { duration := 2, elapsed := 0, just_finished_flag := false } }

/-- `const MOVEMENT_SPEED: f32 = 100.0`. -/
def MOVEMENT_SPEED : Rat := 100

/-- Step 1 of `game_logic`: exit when Q was just pressed. -/
def exitStep (e : Engine) : Engine :=
  if e.keyboard_state.just_pressed KeyCode.Q then { e with should_exit := true } else e

/-- Step 2 of `game_logic`: reposition the score and high-score texts near the
screen edges, the score text with a cosine oscillation offset. -/
def hudStep (cosFn : Rat → Rat) (e : Engine) : Engine :=
  let offset := cosFn (e.time_since_startup * 3) * 5
  let e1 := textModify e "score" (fun t =>
    { t with translation := { x := e.window_dimensions.x / 2 - 80,
                              y := e.window_dimensions.y / 2 - 30 + offset } })
  textModify e1 "high_score" (fun t =>
    { t with translation := { x := - e.window_dimensions.x / 2 + 110,
                              y := e.window_dimensions.y / 2 - 30 } })

/-- The body of the collision loop of `game_logic`, processing one drained
event: when the event state is `Begin` and one pair member starts with
"player", remove each pair member other than "player" from the sprite table,
increment the score, rewrite the score text, raise the high score and rewrite
its text when strictly exceeded, and play a sound effect. -/
def handleCollisionEvent (p : Engine × GameState) (event : CollisionEvent) :
    Engine × GameState :=
  let e := p.1
  let gs := p.2
  if event.state == CollisionState.Begin && one_starts_with event.pair "player" then
    let sprites1 := [event.pair.1, event.pair.2].foldl
      (fun acc label => if label != "player" then tableRemove acc label else acc)
      e.sprites
    let gs1 : GameState := { gs with score := gs.score + 1 }
    let e1 : Engine := { e with sprites := sprites1 }
    let e2 := textModify e1 "score"
      (fun t => { t with value := "Score: " ++ toString gs1.score })
    let p3 : Engine × GameState :=
      if gs1.score > gs1.high_score then
        let gs2 : GameState := { gs1 with high_score := gs1.score }
        (textModify e2 "high_score"
          (fun t => { t with value := "High Score: " ++ toString gs2.high_score }), gs2)
      else (e2, gs1)
    ({ p3.1 with sfx_played := p3.1.sfx_played ++ ["Minimize1"] }, p3.2)
  else
    p

/-- Step 3 of `game_logic`: drain the collision-event queue, processing each
event in order. -/
def collisionStep (e : Engine) (gs : GameState) : Engine × GameState :=
  e.collision_events.foldl handleCollisionEvent ({ e with collision_events := [] }, gs)

/-- Step 4 of `game_logic`: additive player movement, one independent check per
directional key group. -/
def movementStep (e : Engine) : Engine :=
  let e1 := if e.keyboard_state.pressed_any [KeyCode.Up, KeyCode.W] then
      spriteModify e "player" (fun s =>
        { s with translation :=
          { s.translation with y := s.translation.y + MOVEMENT_SPEED * e.delta } })
    else e
  let e2 := if e.keyboard_state.pressed_any [KeyCode.Down, KeyCode.S] then
      spriteModify e1 "player" (fun s =>
        { s with translation :=
          { s.translation with y := s.translation.y - MOVEMENT_SPEED * e.delta } })
    else e1
  let e3 := if e.keyboard_state.pressed_any [KeyCode.Right, KeyCode.D] then
      spriteModify e2 "player" (fun s =>
        { s with translation :=
          { s.translation with x := s.translation.x + MOVEMENT_SPEED * e.delta } })
    else e2
  if e.keyboard_state.pressed_any [KeyCode.Left, KeyCode.A] then
      spriteModify e3 "player" (fun s =>
        { s with translation :=
          { s.translation with x := s.translation.x - MOVEMENT_SPEED * e.delta } })
  else e3

/-- The generated target label: the Rust expression
`format!("ferris{}", game_state.ferris_index)`. -/
def ferrisLabel (i : Int) : String :=
  "ferris" ++ toString i

/-- Step 5 of `game_logic`: when the left mouse button was just pressed and a
pointer location is available, spawn a collision-enabled target at the pointer,
labelled with the current counter value, and increment the counter. -/
def mouseStep (e : Engine) (gs : GameState) : Engine × GameState :=
  if e.mouse_state.just_pressed MouseButton.Left then
    match e.mouse_state.location with
    | some mouse_location =>
        let label := ferrisLabel gs.ferris_index
        let gs1 : GameState := { gs with ferris_index := gs.ferris_index + 1 }
        let e1 := e.add_sprite label
        let e2 := spriteModify e1 label (fun s => { s with translation := mouse_location })
        let e3 := spriteModify e2 label (fun s => { s with collision := true })
        (e3, gs1)
    | none => (e, gs)
  else (e, gs)

/-- Step 6 of `game_logic`: tick the spawn timer by the frame delta; when it
just finished, spawn a collision-enabled target at the position drawn by the
two uniform random draws (`rand_x` from `gen_range(-550.0..550.0)`, `rand_y`
from `gen_range(-325.0..325.0)`), labelled with the current counter value, and
increment the counter. -/
def timerStep (rand_x rand_y : Rat) (e : Engine) (gs : GameState) : Engine × GameState :=
  let t := gs.spawn_timer.tick e.delta
  let gs1 : GameState := { gs with spawn_timer := t }
  if t.just_finished then
    let label := ferrisLabel gs1.ferris_index
    let gs2 : GameState := { gs1 with ferris_index := gs1.ferris_index + 1 }
    let e1 := e.add_sprite label
    let e2 := spriteModify e1 label (fun s =>
      { s with translation := { s.translation with x := rand_x } })
    let e3 := spriteModify e2 label (fun s =>
      { s with translation := { s.translation with y := rand_y } })
    let e4 := spriteModify e3 label (fun s => { s with collision := true })
    (e4, gs2)
  else
    (e, gs1)

/-- Step 7 of `game_logic`: when R was just pressed, reset the score to 0 and
the score text to "Score: 0"; the high score and its text are not touched. -/
def resetStep (e : Engine) (gs : GameState) : Engine × GameState :=
  if e.keyboard_state.just_pressed KeyCode.R then
    let gs1 : GameState := { gs with score := 0 }
    (textModify e "score" (fun t => { t with value := "Score: 0" }), gs1)
  else
    (e, gs)

/-- The per-frame update `game_logic`, as the composition, in source order, of
the seven steps.  `cosFn` stands for the host `f64::cos`; `rand_x`, `rand_y`
are the values the uniform random draws of the timer spawn produce this frame. -/
def game_logic (cosFn : Rat → Rat) (rand_x rand_y : Rat) (engine : Engine)
    (game_state : GameState) : Engine × GameState :=
  let e1 := exitStep engine
  let e2 := hudStep cosFn e1
  let p3 := collisionStep e2 game_state
  let e4 := movementStep p3.1
  let p5 := mouseStep e4 p3.2
  let p6 := timerStep rand_x rand_y p5.1 p5.2
  resetStep p6.1 p6.2

/-- The per-frame data the engine supplies anew each frame: input snapshots,
timing, window size, the collision events detected since the last frame, and
the random draws the timer spawn would consume. -/
structure FrameInput where
  keyboard_state : KeyboardState
  mouse_state : MouseState
  collision_events : List CollisionEvent
  delta : Rat
  time_since_startup : Rat
  window_dimensions : Vec2
  rand_x : Rat
  rand_y : Rat

/-- Load one frame's engine-supplied inputs into the engine state; the
engine-owned persistent collections (sprites, texts, the exit flag and the
observation traces) carry over from the previous frame. -/
def setFrameInput (e : Engine) (fi : FrameInput) : Engine :=
  { e with keyboard_state := fi.keyboard_state, mouse_state := fi.mouse_state,
           collision_events := fi.collision_events, delta := fi.delta,
           time_since_startup := fi.time_since_startup,
           window_dimensions := fi.window_dimensions }

/-- Run one frame: load the frame's inputs, then run `game_logic`. -/
def runFrame (cosFn : Rat → Rat) (p : Engine × GameState) (fi : FrameInput) :
    Engine × GameState :=
  game_logic cosFn fi.rand_x fi.rand_y (setFrameInput p.1 fi) p.2

/-- Run a sequence of frames. -/
def runFrames (cosFn : Rat → Rat) (p : Engine × GameState) (fis : List FrameInput) :
    Engine × GameState :=
  fis.foldl (runFrame cosFn) p

/-- Net horizontal movement direction encoded by a key state: the right-or-D
group contributes +1 when held, the left-or-A group contributes -1 when held
(both groups apply independently, as in the source). -/
def dirX (ks : KeyboardState) : Rat :=
  (if ks.pressed_any [KeyCode.Right, KeyCode.D] then 1 else 0)
    - (if ks.pressed_any [KeyCode.Left, KeyCode.A] then 1 else 0)

/-- Net vertical movement direction encoded by a key state: the up-or-W group
contributes +1 when held, the down-or-S group contributes -1 when held. -/
def dirY (ks : KeyboardState) : Rat :=
  (if ks.pressed_any [KeyCode.Up, KeyCode.W] then 1 else 0)
    - (if ks.pressed_any [KeyCode.Down, KeyCode.S] then 1 else 0)

/-- The movement portion of a sequence of frames: the key state is held fixed
and each frame contributes its own delta.  Used to state frame-rate
independence of the movement step. -/
def moveFrames (ks : KeyboardState) (e : Engine) (ds : List Rat) : Engine :=
  ds.foldl (fun acc d => movementStep { acc with keyboard_state := ks, delta := d }) e

/-- Whether a keyed table holds an entry under the given label. -/
def keyInTable {α : Type} (t : List (String × α)) (label : String) : Bool :=
  (tableGet t label).isSome

/-- Whether a text with the given label is present. -/
def hasText (e : Engine) (label : String) : Bool :=
  keyInTable e.texts label

/-- The list of characters `Nat.repr` produces: the decimal digits of `n`,
most significant first, via the `Nat.digits` machinery (special-casing zero). -/
def decChars (n : Nat) : List Char :=
  if n = 0 then ['0'] else ((Nat.digits 10 n).map Nat.digitChar).reverse

/-- Invariant tying the ghost spawn trace to the spawn counter: every traced
label was generated from a distinct counter value below the current counter,
and the counter is nonnegative (as it is from `GameState::default()` on,
since both spawn paths only increment it). -/
def TraceInv (e : Engine) (gs : GameState) : Prop :=
  0 ≤ gs.ferris_index ∧
  ∃ ks : List Int, e.spawn_trace = ks.map ferrisLabel ∧ ks.Nodup ∧
    ∀ k ∈ ks, 0 ≤ k ∧ k < gs.ferris_index

/-- A keyboard with nothing pressed. -/
def ksNone : KeyboardState :=
  { just_pressed := fun _ => false, pressed := fun _ => false }

/-- A keyboard with R just pressed. -/
def ksR : KeyboardState :=
  { just_pressed := fun k => k == KeyCode.R, pressed := fun _ => false }

/-- A keyboard holding the Up key. -/
def ksUp : KeyboardState :=
  { just_pressed := fun _ => false, pressed := fun k => k == KeyCode.Up }

/-- A mouse with nothing pressed and no pointer location. -/
def msNone : MouseState :=
  { just_pressed := fun _ => false, location := none }

/-- A mouse whose left button was just pressed while no pointer location is
available. -/
def msClickNoLoc : MouseState :=
  { just_pressed := fun b => b == MouseButton.Left, location := none }

/-- A mouse whose left button was just pressed at pointer location (7, 8). -/
def msClickAt : MouseState :=
  { just_pressed := fun b => b == MouseButton.Left, location := some { x := 7, y := 8 } }

/-- The player sprite as configured in `main`. -/
def playerSprite : Sprite :=
  { translation := { x := 0, y := 0 }, rotation := 0, scale := 1, layer := 0,
    collision := true }

/-- A concrete engine state mirroring the setup phase of `main`: the player
sprite, the two HUD texts, no pending input or events (plus one target sprite,
so that collision removal is observable). -/
def engine0 : Engine :=
  { should_exit := false, time_since_startup := 0,
    window_dimensions := { x := 1200, y := 700 }, delta := 1 / 60,
    keyboard_state := ksNone, mouse_state := msNone, collision_events := [],
    sprites := [("player", playerSprite), ("ferris0", defaultSprite)],
    texts := [("score", { value := "Score: 0", translation := { x := 520, y := 320 } }),
              ("high_score", { value := "High Score: 0",
                               translation := { x := -520, y := 320 } })],
    sfx_played := [], spawn_trace := [] }

/-- The initial game state. -/
def gs0 : GameState :=
  GameState.default

/-- A game state whose spawn timer is about to finish. -/
def gsT : GameState :=
  { gs0 with spawn_timer := { duration := 2, elapsed := 2, just_finished_flag := false } }

/-- A concrete frame input: left click at a location, delta large enough for
the 2-second spawn timer to finish, so both spawn paths fire in one frame. -/
def fiBoth : FrameInput :=
  { keyboard_state := ksNone, mouse_state := msClickAt, collision_events := [],
    delta := 2, time_since_startup := 1, window_dimensions := { x := 1200, y := 700 },
    rand_x := 3, rand_y := 4 }

/-- A trivial stand-in for the host cosine, usable at concrete inputs (no claim
constrains the oscillation offset). -/
def cos1 : Rat → Rat :=
  fun _ => 1

/-- A begin-state collision event neither of whose pair members is exactly the
player label, but whose first member starts with it. -/
def evC3 : CollisionEvent :=
  { state := CollisionState.Begin, pair := ("playerx", "gem") }

/-- An engine state in which the left mouse button was just pressed with no
pointer location available. -/
def engineC10 : Engine :=
  { engine0 with mouse_state := msClickNoLoc }

/-- An engine state in which R was just pressed. -/
def engineR : Engine :=
  { engine0 with keyboard_state := ksR }

/-- A mid-game state: score 5, high score 7. -/
def gs5 : GameState :=
  { gs0 with score := 5, high_score := 7 }

/-! Basic facts about the keyed tables. -/

theorem tableGet_cons {α : Type} (q : String × α) (t : List (String × α)) (l : String) :
    tableGet (q :: t) l = if q.1 == l then some q.2 else tableGet t l := by
  by_cases h : (q.1 == l) = true <;> simp [tableGet, List.find?_cons, h]

theorem tableModify_cons {α : Type} (q : String × α) (t : List (String × α))
    (l : String) (f : α → α) :
    tableModify (q :: t) l f =
      (if q.1 == l then (q.1, f q.2) else q) :: tableModify t l f := rfl

theorem tableRemove_cons {α : Type} (q : String × α) (t : List (String × α))
    (l : String) :
    tableRemove (q :: t) l =
      if q.1 != l then q :: tableRemove t l else tableRemove t l := by
  simp only [tableRemove, List.filter_cons]

theorem tableGet_tableModify_self {α : Type} (t : List (String × α)) (l : String)
    (f : α → α) : tableGet (tableModify t l f) l = (tableGet t l).map f := by
  induction t with
  | nil => rfl
  | cons p t ih =>
    rw [tableModify_cons]
    by_cases h : (p.1 == l) = true
    · simp [tableGet_cons, h]
    · simp [tableGet_cons, h, ih]

theorem tableGet_tableModify_ne {α : Type} (t : List (String × α)) (l l' : String)
    (f : α → α) (h : l' ≠ l) :
    tableGet (tableModify t l f) l' = tableGet t l' := by
  induction t with
  | nil => rfl
  | cons p t ih =>
    rw [tableModify_cons]
    by_cases hp : (p.1 == l) = true
    · have hpl : p.1 = l := by simpa using hp
      have hne : (p.1 == l') = false := by
        simp only [beq_eq_false_iff_ne]
        rw [hpl]
        exact fun hc => h hc.symm
      simp [tableGet_cons, hp, hne, ih]
    · simp [tableGet_cons, hp, ih]

theorem tableGet_tableRemove_self {α : Type} (t : List (String × α)) (l : String) :
    tableGet (tableRemove t l) l = none := by
  induction t with
  | nil => rfl
  | cons p t ih =>
    rw [tableRemove_cons]
    by_cases h : (p.1 == l) = true
    · simp [bne, h, ih]
    · simp [bne, h, tableGet_cons, ih]

theorem tableGet_tableRemove_ne {α : Type} (t : List (String × α)) (l l' : String)
    (h : l' ≠ l) : tableGet (tableRemove t l) l' = tableGet t l' := by
  induction t with
  | nil => rfl
  | cons p t ih =>
    rw [tableRemove_cons]
    by_cases hp : (p.1 == l) = true
    · have hpl : p.1 = l := by simpa using hp
      have hne : (p.1 == l') = false := by
        simp only [beq_eq_false_iff_ne]
        rw [hpl]
        exact fun hc => h hc.symm
      simp [bne, hp, tableGet_cons, hne, ih]
    · simp [bne, hp, tableGet_cons, ih]

theorem tableGet_tableInsert_self {α : Type} (t : List (String × α)) (l : String)
    (v : α) : tableGet (tableInsert t l v) l = some v := by
  simp [tableInsert, tableGet, List.find?_cons]

theorem tableGet_tableInsert_ne {α : Type} (t : List (String × α)) (l l' : String)
    (v : α) (h : l' ≠ l) : tableGet (tableInsert t l v) l' = tableGet t l' := by
  have hne : (l == l') = false := beq_eq_false_iff_ne.mpr (fun hc => h hc.symm)
  calc tableGet (tableInsert t l v) l'
      = tableGet (tableRemove t l) l' := by
        simp [tableInsert, tableGet, List.find?_cons, hne]
    _ = tableGet t l' := tableGet_tableRemove_ne t l l' h

/-! Facts about text lookups through the mutation helpers. -/

theorem textValue_textModify_self (e : Engine) (l : String) (f : Text → Text) :
    textValue (textModify e l f) l = ((tableGet e.texts l).map f).map (fun t => t.value) := by
  show (tableGet (tableModify e.texts l f) l).map (fun t => t.value) = _
  rw [tableGet_tableModify_self]

theorem textValue_textModify_ne (e : Engine) (l l' : String) (f : Text → Text)
    (h : l' ≠ l) : textValue (textModify e l f) l' = textValue e l' := by
  show (tableGet (tableModify e.texts l f) l').map (fun t => t.value) = _
  rw [tableGet_tableModify_ne _ _ _ _ h]
  rfl

theorem textValue_textModify_keep (e : Engine) (l l' : String) (f : Text → Text)
    (hf : ∀ t, (f t).value = t.value) :
    textValue (textModify e l f) l' = textValue e l' := by
  by_cases h : l' = l
  · subst h
    rw [textValue_textModify_self]
    cases htl : tableGet e.texts l' with
    | none => simp [textValue, htl]
    | some t => simp [textValue, htl, hf]
  · exact textValue_textModify_ne e l l' f h

theorem textValue_textModify_translation (e : Engine) (l l' : String) (v : Vec2) :
    textValue (textModify e l (fun t => { t with translation := v })) l' =
      textValue e l' :=
  textValue_textModify_keep e l l' _ (fun _ => rfl)

theorem keyInTable_tableModify {α : Type} (t : List (String × α)) (l l' : String)
    (f : α → α) : keyInTable (tableModify t l f) l' = keyInTable t l' := by
  by_cases h : l' = l
  · subst h
    simp [keyInTable, tableGet_tableModify_self]
  · simp [keyInTable, tableGet_tableModify_ne _ _ _ _ h]

theorem hasText_textModify (e : Engine) (l l' : String) (f : Text → Text) :
    hasText (textModify e l f) l' = hasText e l' := by
  simp [hasText, textModify, keyInTable_tableModify]

theorem textValue_set_self (e : Engine) (l : String) (v : String)
    (h : hasText e l = true) :
    textValue (textModify e l (fun t => { t with value := v })) l = some v := by
  rw [textValue_textModify_self]
  cases htl : tableGet e.texts l with
  | none => simp [hasText, keyInTable, htl] at h
  | some t => simp

/-! Component preservation through the individual steps. -/

theorem exitStep_keyboard (e : Engine) :
    (exitStep e).keyboard_state = e.keyboard_state := by
  unfold exitStep; split <;> rfl

theorem exitStep_texts (e : Engine) : (exitStep e).texts = e.texts := by
  unfold exitStep; split <;> rfl

theorem exitStep_spawn_trace (e : Engine) :
    (exitStep e).spawn_trace = e.spawn_trace := by
  unfold exitStep; split <;> rfl

theorem hudStep_keyboard (cosFn : Rat → Rat) (e : Engine) :
    (hudStep cosFn e).keyboard_state = e.keyboard_state := rfl

theorem hudStep_spawn_trace (cosFn : Rat → Rat) (e : Engine) :
    (hudStep cosFn e).spawn_trace = e.spawn_trace := rfl

theorem hudStep_textValue (cosFn : Rat → Rat) (e : Engine) (l : String) :
    textValue (hudStep cosFn e) l = textValue e l := by
  unfold hudStep
  simp only [textValue_textModify_translation]

theorem hudStep_hasText (cosFn : Rat → Rat) (e : Engine) (l : String) :
    hasText (hudStep cosFn e) l = hasText e l := by
  simp [hasText, hudStep, textModify, keyInTable_tableModify]

theorem handleCollisionEvent_pres (p : Engine × GameState) (ev : CollisionEvent) :
    (handleCollisionEvent p ev).1.keyboard_state = p.1.keyboard_state ∧
    (handleCollisionEvent p ev).1.spawn_trace = p.1.spawn_trace ∧
    (handleCollisionEvent p ev).2.ferris_index = p.2.ferris_index ∧
    (handleCollisionEvent p ev).2.spawn_timer = p.2.spawn_timer ∧
    (∀ l, hasText (handleCollisionEvent p ev).1 l = hasText p.1 l) := by
  dsimp only [handleCollisionEvent]
  split
  · split
    · exact ⟨rfl, rfl, rfl, rfl, fun l => by
        simp [hasText, textModify, keyInTable_tableModify]⟩
    · exact ⟨rfl, rfl, rfl, rfl, fun l => by
        simp [hasText, textModify, keyInTable_tableModify]⟩
  · exact ⟨rfl, rfl, rfl, rfl, fun _ => rfl⟩

theorem collisionFold_pres (l : List CollisionEvent) (p : Engine × GameState) :
    (l.foldl handleCollisionEvent p).1.keyboard_state = p.1.keyboard_state ∧
    (l.foldl handleCollisionEvent p).1.spawn_trace = p.1.spawn_trace ∧
    (l.foldl handleCollisionEvent p).2.ferris_index = p.2.ferris_index ∧
    (l.foldl handleCollisionEvent p).2.spawn_timer = p.2.spawn_timer ∧
    (∀ s, hasText (l.foldl handleCollisionEvent p).1 s = hasText p.1 s) := by
  induction l generalizing p with
  | nil => exact ⟨rfl, rfl, rfl, rfl, fun _ => rfl⟩
  | cons ev l ih =>
    have h1 := handleCollisionEvent_pres p ev
    have h2 := ih (handleCollisionEvent p ev)
    exact ⟨h2.1.trans h1.1, h2.2.1.trans h1.2.1, h2.2.2.1.trans h1.2.2.1,
           h2.2.2.2.1.trans h1.2.2.2.1,
           fun s => (h2.2.2.2.2 s).trans (h1.2.2.2.2 s)⟩

theorem collisionStep_keyboard (e : Engine) (gs : GameState) :
    (collisionStep e gs).1.keyboard_state = e.keyboard_state :=
  (collisionFold_pres e.collision_events _).1

theorem collisionStep_spawn_trace (e : Engine) (gs : GameState) :
    (collisionStep e gs).1.spawn_trace = e.spawn_trace :=
  (collisionFold_pres e.collision_events _).2.1

theorem collisionStep_ferris_index (e : Engine) (gs : GameState) :
    (collisionStep e gs).2.ferris_index = gs.ferris_index :=
  (collisionFold_pres e.collision_events _).2.2.1

theorem collisionStep_spawn_timer (e : Engine) (gs : GameState) :
    (collisionStep e gs).2.spawn_timer = gs.spawn_timer :=
  (collisionFold_pres e.collision_events _).2.2.2.1

theorem collisionStep_hasText (e : Engine) (gs : GameState) (s : String) :
    hasText (collisionStep e gs).1 s = hasText e s :=
  (collisionFold_pres e.collision_events _).2.2.2.2 s

theorem handleCollisionEvent_score_le (p : Engine × GameState) (ev : CollisionEvent)
    (h : p.2.score ≤ p.2.high_score) :
    (handleCollisionEvent p ev).2.score ≤ (handleCollisionEvent p ev).2.high_score := by
  dsimp only [handleCollisionEvent]
  split
  · split
    · exact le_refl _
    · next hgt => simpa using Nat.le_of_not_lt (by simpa using hgt)
  · exact h

theorem collisionFold_score_le (l : List CollisionEvent) (p : Engine × GameState)
    (h : p.2.score ≤ p.2.high_score) :
    (l.foldl handleCollisionEvent p).2.score ≤
      (l.foldl handleCollisionEvent p).2.high_score := by
  induction l generalizing p with
  | nil => exact h
  | cons ev l ih => exact ih _ (handleCollisionEvent_score_le p ev h)

theorem collisionStep_score_le (e : Engine) (gs : GameState)
    (h : gs.score ≤ gs.high_score) :
    (collisionStep e gs).2.score ≤ (collisionStep e gs).2.high_score :=
  collisionFold_score_le e.collision_events _ h

theorem movementStep_keyboard (e : Engine) :
    (movementStep e).keyboard_state = e.keyboard_state := by
  dsimp only [movementStep]
  split <;> split <;> split <;> split <;> rfl

theorem movementStep_texts (e : Engine) : (movementStep e).texts = e.texts := by
  dsimp only [movementStep]
  split <;> split <;> split <;> split <;> rfl

theorem movementStep_spawn_trace (e : Engine) :
    (movementStep e).spawn_trace = e.spawn_trace := by
  dsimp only [movementStep]
  split <;> split <;> split <;> split <;> rfl

theorem mouseStep_keyboard (e : Engine) (gs : GameState) :
    (mouseStep e gs).1.keyboard_state = e.keyboard_state := by
  dsimp only [mouseStep]
  split
  · split <;> rfl
  · rfl

theorem mouseStep_texts (e : Engine) (gs : GameState) :
    (mouseStep e gs).1.texts = e.texts := by
  dsimp only [mouseStep]
  split
  · split <;> rfl
  · rfl

theorem mouseStep_scores (e : Engine) (gs : GameState) :
    (mouseStep e gs).2.score = gs.score ∧
    (mouseStep e gs).2.high_score = gs.high_score := by
  dsimp only [mouseStep]
  split
  · split <;> exact ⟨rfl, rfl⟩
  · exact ⟨rfl, rfl⟩

theorem mouseStep_spawn (e : Engine) (gs : GameState) :
    ((mouseStep e gs).1.spawn_trace = e.spawn_trace ∧
      (mouseStep e gs).2.ferris_index = gs.ferris_index) ∨
    ((mouseStep e gs).1.spawn_trace = e.spawn_trace ++ [ferrisLabel gs.ferris_index] ∧
      (mouseStep e gs).2.ferris_index = gs.ferris_index + 1) := by
  dsimp only [mouseStep]
  split
  · split
    · exact Or.inr ⟨rfl, rfl⟩
    · exact Or.inl ⟨rfl, rfl⟩
  · exact Or.inl ⟨rfl, rfl⟩

theorem timerStep_keyboard (rx ry : Rat) (e : Engine) (gs : GameState) :
    (timerStep rx ry e gs).1.keyboard_state = e.keyboard_state := by
  dsimp only [timerStep]
  split <;> rfl

theorem timerStep_texts (rx ry : Rat) (e : Engine) (gs : GameState) :
    (timerStep rx ry e gs).1.texts = e.texts := by
  dsimp only [timerStep]
  split <;> rfl

theorem timerStep_scores (rx ry : Rat) (e : Engine) (gs : GameState) :
    (timerStep rx ry e gs).2.score = gs.score ∧
    (timerStep rx ry e gs).2.high_score = gs.high_score := by
  dsimp only [timerStep]
  split <;> exact ⟨rfl, rfl⟩

theorem timerStep_spawn (rx ry : Rat) (e : Engine) (gs : GameState) :
    ((timerStep rx ry e gs).1.spawn_trace = e.spawn_trace ∧
      (timerStep rx ry e gs).2.ferris_index = gs.ferris_index) ∨
    ((timerStep rx ry e gs).1.spawn_trace = e.spawn_trace ++ [ferrisLabel gs.ferris_index] ∧
      (timerStep rx ry e gs).2.ferris_index = gs.ferris_index + 1) := by
  dsimp only [timerStep]
  split
  · exact Or.inr ⟨rfl, rfl⟩
  · exact Or.inl ⟨rfl, rfl⟩

theorem resetStep_high_score (e : Engine) (gs : GameState) :
    (resetStep e gs).2.high_score = gs.high_score := by
  dsimp only [resetStep]
  split <;> rfl

theorem resetStep_high_score_text (e : Engine) (gs : GameState) :
    textValue (resetStep e gs).1 "high_score" = textValue e "high_score" := by
  dsimp only [resetStep]
  split
  · exact textValue_textModify_ne e "score" "high_score" _ (by decide)
  · rfl

theorem resetStep_spawn_trace (e : Engine) (gs : GameState) :
    (resetStep e gs).1.spawn_trace = e.spawn_trace := by
  dsimp only [resetStep]
  split <;> rfl

theorem resetStep_ferris_index (e : Engine) (gs : GameState) :
    (resetStep e gs).2.ferris_index = gs.ferris_index := by
  dsimp only [resetStep]
  split <;> rfl

theorem resetStep_score_le (e : Engine) (gs : GameState)
    (h : gs.score ≤ gs.high_score) :
    (resetStep e gs).2.score ≤ (resetStep e gs).2.high_score := by
  dsimp only [resetStep]
  split
  · exact Nat.zero_le _
  · exact h

theorem tableGet_set_value (t : List (String × Text)) (l v : String)
    (h : keyInTable t l = true) :
    (tableGet (tableModify t l (fun x => { x with value := v })) l).map
      (fun x => x.value) = some v := by
  rw [tableGet_tableModify_self]
  cases htl : tableGet t l with
  | none => simp [keyInTable, htl] at h
  | some x => simp

theorem hasText_eq_of_texts (e e' : Engine) (h : e.texts = e'.texts) (l : String) :
    hasText e l = hasText e' l := by
  simp [hasText, h]

theorem textValue_eq (e : Engine) (l : String) :
    textValue e l = (tableGet e.texts l).map (fun t => t.value) := rfl

theorem trigger_cond (ev : CollisionEvent) (hst : ev.state = CollisionState.Begin)
    (hsw : one_starts_with ev.pair "player" = true) :
    (ev.state == CollisionState.Begin && one_starts_with ev.pair "player") = true := by
  rw [hst, hsw]
  rfl

theorem handleCollisionEvent_gs_trigger (e : Engine) (gs : GameState)
    (ev : CollisionEvent) (hst : ev.state = CollisionState.Begin)
    (hsw : one_starts_with ev.pair "player" = true) :
    (handleCollisionEvent (e, gs) ev).2 =
      if gs.score + 1 > gs.high_score then
        { gs with score := gs.score + 1, high_score := gs.score + 1 }
      else { gs with score := gs.score + 1 } := by
  dsimp only [handleCollisionEvent]
  rw [if_pos (trigger_cond ev hst hsw)]
  split <;> rfl

theorem handleCollisionEvent_texts_trigger (e : Engine) (gs : GameState)
    (ev : CollisionEvent) (hst : ev.state = CollisionState.Begin)
    (hsw : one_starts_with ev.pair "player" = true) :
    (handleCollisionEvent (e, gs) ev).1.texts =
      if gs.score + 1 > gs.high_score then
        tableModify (tableModify e.texts "score"
            (fun t => { t with value := "Score: " ++ toString (gs.score + 1) }))
          "high_score"
          (fun t => { t with value := "High Score: " ++ toString (gs.score + 1) })
      else
        tableModify e.texts "score"
          (fun t => { t with value := "Score: " ++ toString (gs.score + 1) }) := by
  dsimp only [handleCollisionEvent]
  rw [if_pos (trigger_cond ev hst hsw)]
  split <;> rfl

theorem handleCollisionEvent_sprites_trigger (e : Engine) (gs : GameState)
    (ev : CollisionEvent) (hst : ev.state = CollisionState.Begin)
    (hsw : one_starts_with ev.pair "player" = true) :
    (handleCollisionEvent (e, gs) ev).1.sprites =
      [ev.pair.1, ev.pair.2].foldl
        (fun acc label => if label != "player" then tableRemove acc label else acc)
        e.sprites := by
  dsimp only [handleCollisionEvent]
  rw [if_pos (trigger_cond ev hst hsw)]
  split <;> rfl

theorem handleCollisionEvent_skip (p : Engine × GameState) (ev : CollisionEvent)
    (h : ¬(ev.state = CollisionState.Begin ∧ one_starts_with ev.pair "player" = true)) :
    handleCollisionEvent p ev = p := by
  dsimp only [handleCollisionEvent]
  rw [if_neg (fun hc => h (by simpa [Bool.and_eq_true] using hc))]

/-! The claims. -/

/-- Claim C10: when the primary mouse button was just pressed but no pointer
location is available, the mouse-spawn step is a complete no-op: neither the
engine (in particular the sprite table) nor the game state (in particular the
spawn counter) changes. -/
theorem mouse_spawn_noop_without_location (e : Engine) (gs : GameState)
    (hpress : e.mouse_state.just_pressed MouseButton.Left = true)
    (hloc : e.mouse_state.location = none) :
    mouseStep e gs = (e, gs) := by
  dsimp only [mouseStep]
  rw [hloc]
  split <;> rfl

/-- Witness for C10 at a concrete engine with a click and no pointer location. -/
theorem mouse_spawn_noop_without_location_witness :
    mouseStep engineC10 gs0 = (engineC10, gs0) :=
  mouse_spawn_noop_without_location engineC10 gs0 (by decide) rfl

/-- Claim C3, counterexample: a begin-state event whose pair members are
"playerx" and "gem" — neither of which is the exact player label — still
changes the score, because the source condition is `one_starts_with("player")`,
a prefix check, not an exact-label check. -/
theorem collision_exact_label_counterexample :
    evC3.state = CollisionState.Begin ∧
    evC3.pair.1 ≠ "player" ∧ evC3.pair.2 ≠ "player" ∧
    (handleCollisionEvent (engine0, gs0) evC3).2.score ≠ gs0.score := by
  refine ⟨rfl, by decide, by decide, ?_⟩
  decide

/-- Claim C3 (amended): during collision handling, the engine and game state
change only on events whose state is "begin" and one of whose pair members
STARTS WITH "player"; any event not meeting that condition leaves everything
unchanged. -/
theorem collision_handler_skips_non_matching (e : Engine) (gs : GameState)
    (ev : CollisionEvent)
    (h : ¬(ev.state = CollisionState.Begin ∧ one_starts_with ev.pair "player" = true)) :
    handleCollisionEvent (e, gs) ev = (e, gs) :=
  handleCollisionEvent_skip (e, gs) ev h

/-- Witness for the amended C3 at a concrete end-state event. -/
theorem collision_handler_skips_non_matching_witness :
    handleCollisionEvent (engine0, gs0)
        { state := CollisionState.End, pair := ("player", "ferris0") } =
      (engine0, gs0) :=
  collision_handler_skips_non_matching engine0 gs0 _ (by decide)

/-- Claim C5: a begin-state collision event whose pair is ("player","player")
increments the score by 1 and updates the score text, but removes nothing from
the sprite table. -/
theorem self_collision_scores_without_removal (e : Engine) (gs : GameState)
    (ev : CollisionEvent) (hst : ev.state = CollisionState.Begin)
    (hp : ev.pair = ("player", "player"))
    (hpres : hasText e "score" = true) :
    (handleCollisionEvent (e, gs) ev).2.score = gs.score + 1 ∧
    (handleCollisionEvent (e, gs) ev).1.sprites = e.sprites ∧
    textValue (handleCollisionEvent (e, gs) ev).1 "score" =
      some ("Score: " ++ toString (gs.score + 1)) := by
  have hsw : one_starts_with ev.pair "player" = true := by
    rw [hp]
    decide
  have h1 : (("player" : String) != "player") = false := by decide
  refine ⟨?_, ?_, ?_⟩
  · rw [handleCollisionEvent_gs_trigger e gs ev hst hsw]
    split <;> rfl
  · rw [handleCollisionEvent_sprites_trigger e gs ev hst hsw, hp]
    simp [List.foldl_cons, List.foldl_nil, h1]
  · rw [textValue_eq, handleCollisionEvent_texts_trigger e gs ev hst hsw]
    split
    · rw [tableGet_tableModify_ne _ "high_score" "score" _ (by decide)]
      exact tableGet_set_value e.texts "score" _ hpres
    · exact tableGet_set_value e.texts "score" _ hpres

/-- Witness for C5 at a concrete self-pair event. -/
theorem self_collision_scores_without_removal_witness :
    (handleCollisionEvent (engine0, gs0)
        { state := CollisionState.Begin, pair := ("player", "player") }).2.score =
      gs0.score + 1 ∧
    (handleCollisionEvent (engine0, gs0)
        { state := CollisionState.Begin, pair := ("player", "player") }).1.sprites =
      engine0.sprites ∧
    textValue (handleCollisionEvent (engine0, gs0)
        { state := CollisionState.Begin, pair := ("player", "player") }).1 "score" =
      some ("Score: " ++ toString (gs0.score + 1)) :=
  self_collision_scores_without_removal engine0 gs0 _ rfl rfl (by decide)

/-- Claim C1: a begin-state collision event whose pair consists of the player
label and one other, different label increments the score by exactly 1, removes
the non-player label from the sprite table, and sets the score text to the new
score. -/
theorem collision_with_player_removes_and_scores (e : Engine) (gs : GameState)
    (ev : CollisionEvent) (other : String)
    (hst : ev.state = CollisionState.Begin)
    (hpair : ev.pair = ("player", other) ∨ ev.pair = (other, "player"))
    (hother : other ≠ "player")
    (hpres : hasText e "score" = true) :
    (handleCollisionEvent (e, gs) ev).2.score = gs.score + 1 ∧
    tableGet (handleCollisionEvent (e, gs) ev).1.sprites other = none ∧
    textValue (handleCollisionEvent (e, gs) ev).1 "score" =
      some ("Score: " ++ toString (gs.score + 1)) := by
  have hswp : strStartsWith "player" "player" = true := by decide
  have hsw : one_starts_with ev.pair "player" = true := by
    rcases hpair with hp | hp <;> rw [hp] <;> simp [one_starts_with, hswp]
  have h1 : (("player" : String) != "player") = false := by decide
  have hbne : (other != "player") = true := bne_iff_ne.mpr hother
  refine ⟨?_, ?_, ?_⟩
  · rw [handleCollisionEvent_gs_trigger e gs ev hst hsw]
    split <;> rfl
  · rw [handleCollisionEvent_sprites_trigger e gs ev hst hsw]
    rcases hpair with hp | hp <;> rw [hp] <;>
      simp [List.foldl_cons, List.foldl_nil, h1, hbne, hother,
            tableGet_tableRemove_self]
  · rw [textValue_eq, handleCollisionEvent_texts_trigger e gs ev hst hsw]
    split
    · rw [tableGet_tableModify_ne _ "high_score" "score" _ (by decide)]
      exact tableGet_set_value e.texts "score" _ hpres
    · exact tableGet_set_value e.texts "score" _ hpres

/-- Witness for C1 at a concrete begin event between "player" and "ferris0". -/
theorem collision_with_player_removes_and_scores_witness :
    (handleCollisionEvent (engine0, gs0)
        { state := CollisionState.Begin, pair := ("player", "ferris0") }).2.score =
      gs0.score + 1 ∧
    tableGet (handleCollisionEvent (engine0, gs0)
        { state := CollisionState.Begin, pair := ("player", "ferris0") }).1.sprites
      "ferris0" = none ∧
    textValue (handleCollisionEvent (engine0, gs0)
        { state := CollisionState.Begin, pair := ("player", "ferris0") }).1 "score" =
      some ("Score: " ++ toString (gs0.score + 1)) :=
  collision_with_player_removes_and_scores engine0 gs0 _ "ferris0" rfl
    (Or.inl rfl) (by decide) (by decide)

/-- Claim C2: within collision handling the high-score text value is updated
exactly when the incremented score strictly exceeds the previous high score (in
which case the high score becomes the new score and the text shows it), and the
manual reset never changes the high score or its text value. -/
theorem high_score_update_iff (e : Engine) (gs : GameState) (ev : CollisionEvent)
    (hpres : hasText e "high_score" = true) :
    ((ev.state = CollisionState.Begin ∧ one_starts_with ev.pair "player" = true) ∧
        gs.score + 1 > gs.high_score →
      (handleCollisionEvent (e, gs) ev).2.high_score = gs.score + 1 ∧
      textValue (handleCollisionEvent (e, gs) ev).1 "high_score" =
        some ("High Score: " ++ toString (gs.score + 1))) ∧
    (¬((ev.state = CollisionState.Begin ∧ one_starts_with ev.pair "player" = true) ∧
        gs.score + 1 > gs.high_score) →
      (handleCollisionEvent (e, gs) ev).2.high_score = gs.high_score ∧
      textValue (handleCollisionEvent (e, gs) ev).1 "high_score" =
        textValue e "high_score") ∧
    ((resetStep e gs).2.high_score = gs.high_score ∧
      textValue (resetStep e gs).1 "high_score" = textValue e "high_score") := by
  refine ⟨?_, ?_, resetStep_high_score e gs, resetStep_high_score_text e gs⟩
  · rintro ⟨⟨hst, hsw⟩, hgt⟩
    constructor
    · rw [handleCollisionEvent_gs_trigger e gs ev hst hsw, if_pos hgt]
    · rw [textValue_eq, handleCollisionEvent_texts_trigger e gs ev hst hsw, if_pos hgt]
      refine tableGet_set_value _ "high_score" _ ?_
      rw [keyInTable_tableModify]
      exact hpres
  · intro hn
    by_cases htr : ev.state = CollisionState.Begin ∧ one_starts_with ev.pair "player" = true
    · have hle : ¬(gs.score + 1 > gs.high_score) := fun hgt => hn ⟨htr, hgt⟩
      obtain ⟨hst, hsw⟩ := htr
      constructor
      · rw [handleCollisionEvent_gs_trigger e gs ev hst hsw, if_neg hle]
      · rw [textValue_eq, handleCollisionEvent_texts_trigger e gs ev hst hsw, if_neg hle,
            tableGet_tableModify_ne _ "score" "high_score" _ (by decide)]
        rfl
    · rw [handleCollisionEvent_skip (e, gs) ev htr]
      exact ⟨rfl, rfl⟩

/-- Witness for C2: at score 0, high score 0, a player collision raises the
high score to 1 and rewrites its text. -/
theorem high_score_update_iff_witness :
    (handleCollisionEvent (engine0, gs0)
        { state := CollisionState.Begin, pair := ("player", "ferris0") }).2.high_score =
      gs0.score + 1 ∧
    textValue (handleCollisionEvent (engine0, gs0)
        { state := CollisionState.Begin, pair := ("player", "ferris0") }).1 "high_score" =
      some ("High Score: " ++ toString (gs0.score + 1)) :=
  (high_score_update_iff engine0 gs0 _ (by decide)).1 ⟨⟨rfl, by decide⟩, by decide⟩

/-- Claim C6: when R was just pressed this frame, the frame update ends with
score 0 and score text "Score: 0", while the reset step leaves the high score
and the high-score text value unchanged. -/
theorem reset_resets_score_only (cosFn : Rat → Rat) (rx ry : Rat) (e : Engine)
    (gs : GameState)
    (hr : e.keyboard_state.just_pressed KeyCode.R = true)
    (hpres : hasText e "score" = true) :
    (game_logic cosFn rx ry e gs).2.score = 0 ∧
    textValue (game_logic cosFn rx ry e gs).1 "score" = some "Score: 0" ∧
    (resetStep e gs).2.high_score = gs.high_score ∧
    textValue (resetStep e gs).1 "high_score" = textValue e "high_score" := by
  dsimp only [game_logic]
  set e2 := hudStep cosFn (exitStep e) with he2
  set p3 := collisionStep e2 gs with hp3
  set e4 := movementStep p3.1 with he4
  set p5 := mouseStep e4 p3.2 with hp5
  set p6 := timerStep rx ry p5.1 p5.2 with hp6
  have hkb : p6.1.keyboard_state = e.keyboard_state := by
    rw [hp6, timerStep_keyboard, hp5, mouseStep_keyboard, he4, movementStep_keyboard, hp3,
        collisionStep_keyboard, he2, hudStep_keyboard, exitStep_keyboard]
  have htx : hasText p6.1 "score" = true := by
    rw [hp6, hasText_eq_of_texts _ p5.1 (timerStep_texts rx ry p5.1 p5.2) "score",
        hp5, hasText_eq_of_texts _ e4 (mouseStep_texts e4 p3.2) "score",
        he4, hasText_eq_of_texts _ p3.1 (movementStep_texts p3.1) "score",
        hp3, collisionStep_hasText e2 gs "score",
        he2, hudStep_hasText cosFn (exitStep e) "score",
        hasText_eq_of_texts _ e (exitStep_texts e) "score"]
    exact hpres
  have hrp : p6.1.keyboard_state.just_pressed KeyCode.R = true := by
    rw [hkb]
    exact hr
  dsimp only [resetStep]
  rw [if_pos hrp]
  exact ⟨rfl, textValue_set_self p6.1 "score" "Score: 0" htx,
         resetStep_high_score e gs, resetStep_high_score_text e gs⟩

/-- Witness for C6 at a concrete engine with R pressed and score 5, high 7. -/
theorem reset_resets_score_only_witness :
    (game_logic cos1 0 0 engineR gs5).2.score = 0 ∧
    textValue (game_logic cos1 0 0 engineR gs5).1 "score" = some "Score: 0" ∧
    (resetStep engineR gs5).2.high_score = gs5.high_score ∧
    textValue (resetStep engineR gs5).1 "high_score" = textValue engineR "high_score" :=
  reset_resets_score_only cos1 0 0 engineR gs5 (by decide) (by decide)

/-- Claim C7: a full frame update preserves the invariant that the high score
is at least the score: collision handling raises the high score whenever the
score would exceed it, the reset only lowers the score, and no other step
touches either. -/
theorem high_score_ge_score (cosFn : Rat → Rat) (rx ry : Rat) (e : Engine)
    (gs : GameState) (h : gs.score ≤ gs.high_score) :
    (game_logic cosFn rx ry e gs).2.score ≤
      (game_logic cosFn rx ry e gs).2.high_score := by
  dsimp only [game_logic]
  set e2 := hudStep cosFn (exitStep e) with he2
  set p3 := collisionStep e2 gs with hp3
  set e4 := movementStep p3.1 with he4
  set p5 := mouseStep e4 p3.2 with hp5
  set p6 := timerStep rx ry p5.1 p5.2 with hp6
  apply resetStep_score_le
  have h3 : p3.2.score ≤ p3.2.high_score := by
    rw [hp3]
    exact collisionStep_score_le e2 gs h
  have h5 : p5.2.score ≤ p5.2.high_score := by
    rw [hp5, (mouseStep_scores e4 p3.2).1, (mouseStep_scores e4 p3.2).2]
    exact h3
  rw [hp6, (timerStep_scores rx ry p5.1 p5.2).1, (timerStep_scores rx ry p5.1 p5.2).2]
  exact h5

/-- Witness for C7 at the initial state. -/
theorem high_score_ge_score_witness :
    (game_logic cos1 0 0 engine0 gs0).2.score ≤
      (game_logic cos1 0 0 engine0 gs0).2.high_score :=
  high_score_ge_score cos1 0 0 engine0 gs0 (by decide)

theorem tableGet_spriteModify_self (e : Engine) (l : String) (f : Sprite → Sprite) :
    tableGet (spriteModify e l f).sprites l = (tableGet e.sprites l).map f :=
  tableGet_tableModify_self e.sprites l f

theorem tableGet_add_sprite_self (e : Engine) (l : String) :
    tableGet (e.add_sprite l).sprites l = some defaultSprite :=
  tableGet_tableInsert_self e.sprites l defaultSprite

/-- Claim C8: whenever the spawn timer finishes, the spawned target's position
lies within the play-field bounds, for every value the uniform draws can
produce: `gen_range(-550.0..550.0)` yields `-550 ≤ x < 550` and
`gen_range(-325.0..325.0)` yields `-325 ≤ y < 325`, hence
`-550 ≤ x ≤ 550` and `-325 ≤ y ≤ 325`. -/
theorem timer_spawn_in_bounds (rx ry : Rat) (e : Engine) (gs : GameState)
    (hx1 : -550 ≤ rx) (hx2 : rx < 550) (hy1 : -325 ≤ ry) (hy2 : ry < 325)
    (hfin : (gs.spawn_timer.tick e.delta).just_finished = true) :
    ∃ s : Sprite,
      tableGet (timerStep rx ry e gs).1.sprites (ferrisLabel gs.ferris_index) =
        some s ∧
      -550 ≤ s.translation.x ∧ s.translation.x ≤ 550 ∧
      -325 ≤ s.translation.y ∧ s.translation.y ≤ 325 := by
  dsimp only [timerStep]
  rw [if_pos hfin]
  refine ⟨{ translation := { x := rx, y := ry }, rotation := 0, scale := 1,
            layer := 0, collision := true }, ?_, hx1, le_of_lt hx2, hy1, le_of_lt hy2⟩
  rw [tableGet_spriteModify_self, tableGet_spriteModify_self, tableGet_spriteModify_self,
      tableGet_add_sprite_self]
  rfl

/-- Witness for C8 at a concrete finishing timer and draws (3, 4). -/
theorem timer_spawn_in_bounds_witness :
    ∃ s : Sprite,
      tableGet (timerStep 3 4 engine0 gsT).1.sprites (ferrisLabel gsT.ferris_index) =
        some s ∧
      -550 ≤ s.translation.x ∧ s.translation.x ≤ 550 ∧
      -325 ≤ s.translation.y ∧ s.translation.y ≤ 325 :=
  timer_spawn_in_bounds 3 4 engine0 gsT (by norm_num) (by norm_num) (by norm_num)
    (by norm_num)
    (by norm_num [gsT, gs0, GameState.default, engine0, Timer.tick, Timer.just_finished])

theorem movementStep_player (e : Engine) (s : Sprite)
    (h : tableGet e.sprites "player" = some s) :
    tableGet (movementStep e).sprites "player" =
      some { s with translation :=
        { x := s.translation.x + MOVEMENT_SPEED * e.delta * dirX e.keyboard_state,
          y := s.translation.y + MOVEMENT_SPEED * e.delta * dirY e.keyboard_state } } := by
  dsimp only [movementStep, dirX, dirY]
  cases hup : e.keyboard_state.pressed_any [KeyCode.Up, KeyCode.W] <;>
  cases hdn : e.keyboard_state.pressed_any [KeyCode.Down, KeyCode.S] <;>
  cases hrt : e.keyboard_state.pressed_any [KeyCode.Right, KeyCode.D] <;>
  cases hlf : e.keyboard_state.pressed_any [KeyCode.Left, KeyCode.A] <;>
    simp [hup, hdn, hrt, hlf, tableGet_spriteModify_self, h, Sprite.mk.injEq,
          Vec2.mk.injEq] <;>
    ring_nf <;> try exact ⟨trivial, trivial⟩

theorem moveFrames_player (ks : KeyboardState) (ds : List Rat) :
    ∀ (e : Engine) (s : Sprite), tableGet e.sprites "player" = some s →
    tableGet (moveFrames ks e ds).sprites "player" =
      some { s with translation :=
        { x := s.translation.x + MOVEMENT_SPEED * ds.sum * dirX ks,
          y := s.translation.y + MOVEMENT_SPEED * ds.sum * dirY ks } } := by
  induction ds with
  | nil =>
    intro e s h
    show tableGet e.sprites "player" = _
    rw [h]
    simp [List.sum_nil, Sprite.mk.injEq, Vec2.mk.injEq]
  | cons d ds ih =>
    intro e s h
    have hstep := movementStep_player { e with keyboard_state := ks, delta := d } s h
    show tableGet (moveFrames ks
        (movementStep { e with keyboard_state := ks, delta := d }) ds).sprites "player" = _
    rw [ih _ _ hstep]
    simp only [Option.some.injEq, Sprite.mk.injEq, Vec2.mk.injEq, List.sum_cons,
               and_true, true_and]
    constructor <;> ring

/-- Claim C9: movement is additive and frame-rate independent: with the key
state held fixed, iterating the movement step over any list of frame deltas
moves the player by `MOVEMENT_SPEED * (total time) * direction` on each axis
(so the displacement depends on the deltas only through their sum, and any two
slicings of the same total time coincide), where each axis direction is the sum
of the contributions of the two opposing key groups, both applying with no
mutual exclusion. -/
theorem movement_additive (ks : KeyboardState) (e : Engine) (s : Sprite)
    (ds : List Rat) (h : tableGet e.sprites "player" = some s) :
    tableGet (moveFrames ks e ds).sprites "player" =
      some { s with translation :=
        { x := s.translation.x + MOVEMENT_SPEED * ds.sum * dirX ks,
          y := s.translation.y + MOVEMENT_SPEED * ds.sum * dirY ks } } ∧
    ∀ ds' : List Rat, ds'.sum = ds.sum →
      tableGet (moveFrames ks e ds').sprites "player" =
        tableGet (moveFrames ks e ds).sprites "player" := by
  refine ⟨moveFrames_player ks ds e s h, fun ds' hsum => ?_⟩
  rw [moveFrames_player ks ds' e s h, moveFrames_player ks ds e s h, hsum]

/-- Witness for C9: one frame of delta 1 moves the player exactly as two frames
of delta 1/2 while Up is held. -/
theorem movement_additive_witness :
    tableGet (moveFrames ksUp engine0 [1]).sprites "player" =
      tableGet (moveFrames ksUp engine0 [1/2, 1/2]).sprites "player" ∧
    tableGet (moveFrames ksUp engine0 [1/2, 1/2]).sprites "player" =
      some { playerSprite with translation :=
        { x := playerSprite.translation.x +
            MOVEMENT_SPEED * ([1/2, 1/2] : List Rat).sum * dirX ksUp,
          y := playerSprite.translation.y +
            MOVEMENT_SPEED * ([1/2, 1/2] : List Rat).sum * dirY ksUp } } :=
  ⟨(movement_additive ksUp engine0 playerSprite [1/2, 1/2] rfl).2 [1] (by norm_num),
   (movement_additive ksUp engine0 playerSprite [1/2, 1/2] rfl).1⟩

/-! Injectivity of the decimal representation `Nat.repr`, needed for the
uniqueness of the generated labels. -/

theorem digitChar_inj_lt :
    ∀ a, a < 10 → ∀ b, b < 10 → Nat.digitChar a = Nat.digitChar b → a = b := by
  decide

theorem toDigitsCore_eq (n : Nat) : ∀ (fuel : Nat) (ds : List Char),
    n + 1 ≤ fuel → Nat.toDigitsCore 10 fuel n ds = decChars n ++ ds := by
  induction n using Nat.strong_induction_on with
  | _ n ih =>
    intro fuel ds hfuel
    cases fuel with
    | zero => omega
    | succ fuel =>
      simp only [Nat.toDigitsCore]
      by_cases h0 : n / 10 = 0
      · rw [if_pos h0]
        by_cases hn : n = 0
        · subst hn
          simp [decChars, Nat.digitChar]
        · have hlt : n < 10 := by omega
          simp [decChars, hn, Nat.digits_of_lt 10 n hn hlt, Nat.mod_eq_of_lt hlt]
      · rw [if_neg h0]
        have hn : n ≠ 0 := by omega
        have hlt : n / 10 < n := Nat.div_lt_self (by omega) (by norm_num)
        have hfuel' : n / 10 + 1 ≤ fuel := by omega
        rw [ih (n / 10) hlt fuel (Nat.digitChar (n % 10) :: ds) hfuel']
        have hd : decChars n = decChars (n / 10) ++ [Nat.digitChar (n % 10)] := by
          simp only [decChars, if_neg hn, if_neg h0]
          rw [Nat.digits_def' (by norm_num : (1 : Nat) < 10) (by omega : 0 < n)]
          simp
        rw [hd, List.append_assoc]
        rfl

theorem repr_eq_decChars (n : Nat) : Nat.repr n = (decChars n).asString := by
  show (Nat.toDigitsCore 10 (n + 1) n []).asString = _
  rw [toDigitsCore_eq n (n + 1) [] (le_refl _), List.append_nil]

theorem map_digitChar_inj : ∀ (l1 l2 : List Nat), (∀ a ∈ l1, a < 10) →
    (∀ a ∈ l2, a < 10) → l1.map Nat.digitChar = l2.map Nat.digitChar → l1 = l2 := by
  intro l1
  induction l1 with
  | nil =>
    intro l2 _ _ h
    cases l2 with
    | nil => rfl
    | cons b t => simp at h
  | cons a t ih =>
    intro l2 h1 h2 h
    cases l2 with
    | nil => simp at h
    | cons b t2 =>
      simp only [List.map_cons, List.cons.injEq] at h
      have ha : a < 10 := h1 a (by simp)
      have hb : b < 10 := h2 b (by simp)
      have hab : a = b := digitChar_inj_lt a ha b hb h.1
      subst hab
      rw [ih t2 (fun x hx => h1 x (by simp [hx])) (fun x hx => h2 x (by simp [hx])) h.2]

theorem decChars_inj (m n : Nat) (h : decChars m = decChars n) : m = n := by
  by_cases hm : m = 0 <;> by_cases hn : n = 0
  · omega
  · exfalso
    simp only [decChars, if_pos hm, if_neg hn] at h
    have h' : (Nat.digits 10 n).map Nat.digitChar = ['0'] := by
      have := congrArg List.reverse h
      simpa using this.symm
    have h0 : Nat.digits 10 n = [0] := by
      refine map_digitChar_inj _ [0]
        (fun a ha => Nat.digits_lt_base (by norm_num) ha) (by simp) ?_
      rw [h']
      simp [Nat.digitChar]
    have hdig := Nat.ofDigits_digits 10 n
    rw [h0] at hdig
    simp [Nat.ofDigits] at hdig
    exact hn hdig.symm
  · exfalso
    simp only [decChars, if_neg hm, if_pos hn] at h
    have h' : (Nat.digits 10 m).map Nat.digitChar = ['0'] := by
      have := congrArg List.reverse h
      simpa using this
    have h0 : Nat.digits 10 m = [0] := by
      refine map_digitChar_inj _ [0]
        (fun a ha => Nat.digits_lt_base (by norm_num) ha) (by simp) ?_
      rw [h']
      simp [Nat.digitChar]
    have hdig := Nat.ofDigits_digits 10 m
    rw [h0] at hdig
    simp [Nat.ofDigits] at hdig
    exact hm hdig.symm
  · simp only [decChars, if_neg hm, if_neg hn] at h
    have h' := List.reverse_injective h
    have hd : Nat.digits 10 m = Nat.digits 10 n :=
      map_digitChar_inj _ _ (fun a ha => Nat.digits_lt_base (by norm_num) ha)
        (fun a ha => Nat.digits_lt_base (by norm_num) ha) h'
    have h1 := Nat.ofDigits_digits 10 m
    have h2 := Nat.ofDigits_digits 10 n
    rw [hd, h2] at h1
    exact h1.symm

theorem nat_repr_data_inj (m n : Nat) (h : (Nat.repr m).data = (Nat.repr n).data) :
    m = n := by
  apply decChars_inj
  rw [repr_eq_decChars, repr_eq_decChars] at h
  exact h

theorem ferrisLabel_inj (i j : Int) (hi : 0 ≤ i) (hj : 0 ≤ j)
    (h : ferrisLabel i = ferrisLabel j) : i = j := by
  obtain ⟨a, rfl⟩ := Int.eq_ofNat_of_zero_le hi
  obtain ⟨b, rfl⟩ := Int.eq_ofNat_of_zero_le hj
  have hd := congrArg String.data h
  simp only [ferrisLabel, String.data_append] at hd
  have h2 := List.append_cancel_left hd
  exact congrArg Int.ofNat (nat_repr_data_inj a b h2)

theorem TraceInv_of_spawn (e e' : Engine) (gs gs' : GameState)
    (hsp : (e'.spawn_trace = e.spawn_trace ∧ gs'.ferris_index = gs.ferris_index) ∨
      (e'.spawn_trace = e.spawn_trace ++ [ferrisLabel gs.ferris_index] ∧
        gs'.ferris_index = gs.ferris_index + 1))
    (h : TraceInv e gs) : TraceInv e' gs' := by
  obtain ⟨hix, ks, htr, hnd, hbound⟩ := h
  rcases hsp with ⟨h1, h2⟩ | ⟨h1, h2⟩
  · refine ⟨by omega, ks, by rw [h1, htr], hnd, fun k hk => ?_⟩
    have := hbound k hk
    omega
  · refine ⟨by omega, ks ++ [gs.ferris_index], ?_, ?_, ?_⟩
    · rw [h1, htr, List.map_append, List.map_singleton]
    · refine List.Nodup.append hnd (List.nodup_singleton _) ?_
      intro a ha hb
      rw [List.mem_singleton] at hb
      subst hb
      exact absurd (hbound _ ha).2 (lt_irrefl _)
    · intro k hk
      rcases List.mem_append.mp hk with hk | hk
      · have := hbound k hk
        omega
      · rw [List.mem_singleton] at hk
        subst hk
        omega

theorem TraceInv_runFrame (cosFn : Rat → Rat) (p : Engine × GameState)
    (fi : FrameInput) (h : TraceInv p.1 p.2) :
    TraceInv (runFrame cosFn p fi).1 (runFrame cosFn p fi).2 := by
  dsimp only [runFrame, game_logic]
  set e0 := setFrameInput p.1 fi with he0
  set e2 := hudStep cosFn (exitStep e0) with he2
  set p3 := collisionStep e2 p.2 with hp3
  set e4 := movementStep p3.1 with he4
  set p5 := mouseStep e4 p3.2 with hp5
  set p6 := timerStep fi.rand_x fi.rand_y p5.1 p5.2 with hp6
  have h0 : TraceInv e0 p.2 :=
    TraceInv_of_spawn p.1 e0 p.2 p.2 (Or.inl ⟨by rw [he0]; rfl, rfl⟩) h
  have h2 : TraceInv e2 p.2 :=
    TraceInv_of_spawn e0 e2 p.2 p.2
      (Or.inl ⟨by rw [he2, hudStep_spawn_trace, exitStep_spawn_trace], rfl⟩) h0
  have h3 : TraceInv p3.1 p3.2 :=
    TraceInv_of_spawn e2 p3.1 p.2 p3.2
      (Or.inl ⟨by rw [hp3, collisionStep_spawn_trace],
               by rw [hp3, collisionStep_ferris_index]⟩) h2
  have h4 : TraceInv e4 p3.2 :=
    TraceInv_of_spawn p3.1 e4 p3.2 p3.2
      (Or.inl ⟨by rw [he4, movementStep_spawn_trace], rfl⟩) h3
  have h5 : TraceInv p5.1 p5.2 := by
    refine TraceInv_of_spawn e4 p5.1 p3.2 p5.2 ?_ h4
    rw [hp5]
    exact mouseStep_spawn e4 p3.2
  have h6 : TraceInv p6.1 p6.2 := by
    refine TraceInv_of_spawn p5.1 p6.1 p5.2 p6.2 ?_ h5
    rw [hp6]
    exact timerStep_spawn fi.rand_x fi.rand_y p5.1 p5.2
  exact TraceInv_of_spawn p6.1 _ p6.2 _
    (Or.inl ⟨resetStep_spawn_trace p6.1 p6.2, resetStep_ferris_index p6.1 p6.2⟩) h6

theorem TraceInv_runFrames (cosFn : Rat → Rat) (fis : List FrameInput) :
    ∀ p : Engine × GameState, TraceInv p.1 p.2 →
      TraceInv (runFrames cosFn p fis).1 (runFrames cosFn p fis).2 := by
  induction fis with
  | nil => exact fun p h => h
  | cons fi fis ih =>
    exact fun p h => ih (runFrame cosFn p fi) (TraceInv_runFrame cosFn p fi h)

/-- Claim C4: across any sequence of frames in one run (spawn counter starting
nonnegative, as from `GameState::default()`, and the ghost spawn trace empty),
the labels handed to `add_sprite` by the two spawn paths are pairwise distinct:
both paths consume the same monotonically incremented counter, and the decimal
rendering of distinct counter values yields distinct labels. -/
theorem spawn_labels_unique (cosFn : Rat → Rat) (e : Engine) (gs : GameState)
    (fis : List FrameInput) (h0 : 0 ≤ gs.ferris_index)
    (htr : e.spawn_trace = []) :
    ((runFrames cosFn (e, gs) fis).1.spawn_trace).Nodup := by
  have hinv : TraceInv e gs := ⟨h0, [], by simp [htr], List.nodup_nil, by simp⟩
  obtain ⟨hix, ks, htr', hnd, hbound⟩ := TraceInv_runFrames cosFn fis (e, gs) hinv
  rw [htr']
  refine List.Nodup.map_on ?_ hnd
  intro x hx y hy hxy
  exact ferrisLabel_inj x y (hbound x hx).1 (hbound y hy).1 hxy

/-- Witness for C4: two frames each spawning two targets (mouse click and timer
expiry) produce four pairwise distinct labels. -/
theorem spawn_labels_unique_witness :
    ((runFrames cos1 (engine0, gs0) [fiBoth, fiBoth]).1.spawn_trace).Nodup :=
  spawn_labels_unique cos1 engine0 gs0 [fiBoth, fiBoth] (by decide) rfl

end Tutorial
